import Mathlib

/-!
Verification of the antmunch game (`game.py`).

The game's state and operations are shallowly embedded here:

* positions and angular quantities are real numbers (`ℝ`), matching the
  Python floats;
* the Python sets `Game.food` and `Game.poison` hold freshly created
  objects, whose equality is object identity; we model each entity with a
  numeric identity `eid`, drawn from a counter `ctr` carried in the game
  state, so that two entities are "the same object" iff their `eid`s agree;
* the random draws of `random.randint` (inside `good_position`) and
  `random.choice` (sprite selection, which fixes an entity's pixel size)
  are modelled by oracle streams `posO`/`sizeO` carried in the game state
  and indexed by the creation counter.  `good_position` itself is an
  unbounded retry loop over such draws; it is modelled separately
  (`goodPosition`) as a first-match search over the stream of candidate
  draws, returning `none` when the (finite prefix of the) stream is
  exhausted;
* rendering, audio and the pygame timers are external effects with no
  bearing on the game state; the two timer *events* (`Game.START`,
  `Game.RESTART`) are modelled as events of the event loop `step`.
-/

open Classical

/-- `distance(p, q)` of game.py: Euclidean distance. -/
noncomputable def distance (p q : ℝ × ℝ) : ℝ :=
  Real.sqrt ((p.1 - q.1)^2 + (p.2 - q.2)^2)

/-- A Food or Poison object: object identity `eid`, `position`, and
`size()` (the max dimension of its sprite image). -/
structure Entity where
  eid : ℕ
  pos : ℝ × ℝ
  esize : ℝ
  deriving Inhabited

/-- The mutable fields of `Ant`.  `asize` is `self.size()` (fixed by the
ant's sprite). -/
structure AntState where
  pos : ℝ × ℝ
  direction : ℝ
  speed : ℤ
  target : Option Entity
  imageIndex : ℕ
  asize : ℝ

/-- The four values of the `Game` state enum. -/
inductive Phase where
  | PLAYING | DYING | GAME_OVER | STARTING
  deriving DecidableEq

/-- The `Game` state: score, lives, state enum, the ant, the food and
poison sets (as lists; Python set iteration order is some fixed order),
the object-identity counter `ctr` and the randomness oracles. -/
structure GameState where
  score : ℤ
  lives : ℤ
  phase : Phase
  ant : AntState
  food : List Entity
  poison : List Entity
  ctr : ℕ
  posO : ℕ → ℝ × ℝ
  sizeO : ℕ → ℝ

/-- `Game.NUM_FOOD`. -/
def NUM_FOOD : ℕ := 4

/-- `Game.MIN_POISON`. -/
def MIN_POISON : ℤ := 6

/-- `Ant.START_SPEED`. -/
def START_SPEED : ℤ := 5

/-- `Ant.ROT`. -/
noncomputable def ROT : ℝ := Real.pi / 75

/-- The loop of `Ant.choose_food`: scan the collection keeping the
closest-so-far item and its distance `dmin`. -/
noncomputable def chooseFoodAux (pos : ℝ × ℝ) :
    List Entity → Option Entity → ℝ → Option Entity
  | [], tgt, _ => tgt
  | f :: rest, tgt, dmin =>
      if distance pos f.pos < dmin then chooseFoodAux pos rest (some f) (distance pos f.pos)
      else chooseFoodAux pos rest tgt dmin

/-- `Ant.choose_food`: `dmin` starts at `10**15`; `self.target` is only
assigned when some item beats `dmin` (result `none` = no assignment). -/
noncomputable def chooseFood (pos : ℝ × ℝ) (food : List Entity) : Option Entity :=
  chooseFoodAux pos food none (10^15)

/-- The effect of `Ant.choose_food` on the ant: the target is updated
exactly when the scan assigned one. -/
noncomputable def antChooseFood (a : AntState) (food : List Entity) : AntState :=
  match chooseFood a.pos food with
  | some f => { a with target := some f }
  | none => a

/-- For 0 < a, the nat-ceiling of a - 1 is smaller than that of a
(termination measure of the direction-normalisation loops). -/
theorem ceil_pred_lt (a : ℝ) (ha : 0 < a) : ⌈a - 1⌉₊ < ⌈a⌉₊ := by
  rw [Nat.lt_iff_add_one_le]
  rw [Nat.add_one_le_ceil_iff]
  rcases le_or_lt a 1 with hc | hc
  · have h0 : ⌈a - 1⌉₊ = 0 := Nat.ceil_eq_zero.mpr (by linarith)
    rw [h0]
    exact_mod_cast ha
  · have h1 : (⌈a - 1⌉₊ : ℝ) < (a - 1) + 1 := Nat.ceil_lt_add_one (by linarith)
    linarith

/-- First while loop of `Ant.move`: `while self.direction > pi:
self.direction -= 2*pi`. -/
noncomputable def normDown (d : ℝ) : ℝ :=
  if h : Real.pi < d then normDown (d - 2*Real.pi) else d
termination_by ⌈(d - Real.pi) / (2*Real.pi)⌉₊
decreasing_by
  have hpi := Real.pi_pos
  have h2 : (0:ℝ) < 2*Real.pi := by linarith
  have hb : (d - 2*Real.pi - Real.pi) / (2*Real.pi)
      = (d - Real.pi) / (2*Real.pi) - 1 := by
    field_simp
    ring
  rw [hb]
  exact ceil_pred_lt _ (div_pos (by linarith) h2)

/-- Second while loop of `Ant.move`: `while self.direction < -pi:
self.direction += 2*pi`. -/
noncomputable def normUp (d : ℝ) : ℝ :=
  if h : d < -Real.pi then normUp (d + 2*Real.pi) else d
termination_by ⌈(-Real.pi - d) / (2*Real.pi)⌉₊
decreasing_by
  have hpi := Real.pi_pos
  have h2 : (0:ℝ) < 2*Real.pi := by linarith
  have hb : (-Real.pi - (d + 2*Real.pi)) / (2*Real.pi)
      = (-Real.pi - d) / (2*Real.pi) - 1 := by
    field_simp
    ring
  rw [hb]
  exact ceil_pred_lt _ (div_pos (by linarith) h2)

/-- The two while loops of `Ant.move` run in sequence. -/
noncomputable def normalizeDir (d : ℝ) : ℝ := normUp (normDown d)

/-- The two wrap `if`s of `Ant.move`: `if turn > pi: turn = -2*pi + turn`,
then `if turn < -pi: turn = 2*pi - turn` (sic: `-`, not `+`). -/
noncomputable def wrapTurn (t : ℝ) : ℝ :=
  let t1 := if t > Real.pi then -(2*Real.pi) + t else t
  if t1 < -Real.pi then 2*Real.pi - t1 else t1

/-- The direction computation of `Ant.move`: normalize the stored
direction, wrap the turn toward heading `theta`, clamp it to
`[-speed*ROT, speed*ROT]`, and add it to the direction. -/
noncomputable def moveDirection (dir theta speed : ℝ) : ℝ :=
  let dn := normalizeDir dir
  let turn := wrapTurn (theta - dn)
  let turn2 := min (speed * ROT) turn
  let turn3 := max (-(speed * ROT)) turn2
  dn + turn3

/-- `Ant.move`: heading `theta = atan2(uv_y, uv_x)` toward the target
(atan2 is `Complex.arg`, both valued in (-pi, pi]), direction updated by
`moveDirection`, animation frame advanced mod 3, position advanced by
`speed` along the new direction.  (With no target, the Python raises; we
leave the ant unchanged, and every theorem below supposes a target.) -/
noncomputable def antMove (a : AntState) : AntState :=
  match a.target with
  | none => a
  | some t =>
      let v : ℝ × ℝ := (t.pos.1 - a.pos.1, t.pos.2 - a.pos.2)
      let n := Real.sqrt (v.1^2 + v.2^2)
      let uv : ℝ × ℝ := (v.1 / n, v.2 / n)
      let theta := Complex.arg ⟨uv.1, uv.2⟩
      let d := moveDirection a.direction theta (a.speed : ℝ)
      { a with direction := d,
               imageIndex := (a.imageIndex + 1) % 3,
               pos := (a.pos.1 + Real.cos d * (a.speed : ℝ),
                       a.pos.2 + Real.sin d * (a.speed : ℝ)) }

/-- Creation of a fresh Food/Poison object: a new object identity and one
draw from each randomness oracle (the `good_position` result and the
sprite size), advancing the counter. -/
def spawn (g : GameState) : Entity × GameState :=
  (⟨g.ctr, g.posO g.ctr, g.sizeO g.ctr⟩, { g with ctr := g.ctr + 1 })

/-- `n` fresh objects created in sequence (a Python set comprehension over
`range(n)`; the objects are pairwise distinct, so the set has `n`
members, kept here as a list). -/
def spawnMany : ℕ → GameState → List Entity × GameState
  | 0, g => ([], g)
  | n+1, g =>
      let p := spawn g
      let q := spawnMany n p.2
      (p.1 :: q.1, q.2)

/-- `self.poison.add(self.new_poison())`. -/
def addPoison (g : GameState) : GameState :=
  let p := spawn g
  { p.2 with poison := p.2.poison ++ [p.1] }

/-- `Game.start`: ant recentred to (width//2, height//2) = (400, 300);
food repopulated with `NUM_FOOD` fresh objects; poison repopulated with
`MIN_POISON + score//5000` fresh objects; target re-selected; state set
to PLAYING. -/
noncomputable def start (g : GameState) : GameState :=
  let g0 := { g with ant := { g.ant with pos := ((400:ℝ), (300:ℝ)) } }
  let fd := spawnMany NUM_FOOD g0
  let g2 := { fd.2 with food := fd.1 }
  let np := (MIN_POISON + g2.score / 5000).toNat
  let ps := spawnMany np g2
  let g4 := { ps.2 with poison := ps.1 }
  let g5 := { g4 with ant := antChooseFood g4.ant g4.food }
  { g5 with phase := Phase.PLAYING }

/-- `Game.restart`: lives = 3, score = 0, ant speed = START_SPEED, then
`start()`. -/
noncomputable def restart (g : GameState) : GameState :=
  start { g with lives := 3, score := 0, ant := { g.ant with speed := START_SPEED } }

/-- `Game.die`: lives -= 1, state = DYING (sound/timer are external). -/
def die (g : GameState) : GameState :=
  { g with lives := g.lives - 1, phase := Phase.DYING }

/-- `Game.game_over`: state = GAME_OVER (sound/timer are external). -/
def gameOver (g : GameState) : GameState :=
  { g with phase := Phase.GAME_OVER }

/-- `Game.check_ant_eating`: when the ant is within `speed` of its
target, remove the target from the food set, add 100 to the score, grow
the speed on exact multiples of 1000, add a poison on exact multiples of
5000 below 30000, add one replacement food, and re-select the target. -/
noncomputable def checkAntEating (g : GameState) : GameState :=
  match g.ant.target with
  | none => g
  | some t =>
      if distance g.ant.pos t.pos < (g.ant.speed : ℝ) then
        let g1 := { g with food := g.food.filter (fun e => e.eid != t.eid),
                           score := g.score + 100 }
        let g2 := if g1.score % 1000 = 0 then
                    { g1 with ant := { g1.ant with speed := g1.ant.speed + 1 } }
                  else g1
        let g3 := if g2.score % 5000 = 0 ∧ g2.score < 30000 then addPoison g2 else g2
        let nf := spawn g3
        let g4 := { nf.2 with food := nf.2.food ++ [nf.1] }
        { g4 with ant := antChooseFood g4.ant g4.food }
      else g

/-- `Game.check_ant_poisoned`: the loop calls `die()` and returns on the
first poison within `(ant.size() + p.size())/3` of the ant; the state
effect is `die` exactly when some poison is that close. -/
noncomputable def checkAntPoisoned (g : GameState) : GameState :=
  if ∃ p ∈ g.poison, distance g.ant.pos p.pos < (g.ant.asize + p.esize) / 3 then
    die g
  else g

/-- The loop body of `Game.clicked`, iterating over a snapshot
(`list(self.poison)`) of the poison set: each snapshot member within half
its size of the click is removed from the live set and a fresh
replacement is added. -/
noncomputable def clickedAux (cpos : ℝ × ℝ) : List Entity → GameState → GameState
  | [], g => g
  | p :: rest, g =>
      if distance p.pos cpos < p.esize / 2 then
        let g1 := { g with poison := g.poison.filter (fun e => e.eid != p.eid) }
        clickedAux cpos rest (addPoison g1)
      else clickedAux cpos rest g

/-- `Game.clicked`: run the loop over the snapshot of the current poison
set. -/
noncomputable def clicked (g : GameState) (cpos : ℝ × ℝ) : GameState :=
  clickedAux cpos g.poison g

/-- The `Game.START` timer event's handler in `Game.run`: game over when
out of lives, otherwise resume via `start()`. -/
noncomputable def handleStart (g : GameState) : GameState :=
  if g.lives = 0 then gameOver g else start g

/-- The events `Game.run` dispatches on (QUIT/ESCAPE end the loop without
touching the game state; unknown events are skipped). -/
inductive GEvent where
  | refresh
  | click (pos : ℝ × ℝ)
  | startTimer
  | restartTimer
  | other

/-- One iteration of the event loop of `Game.run` (drawing is external):
REFRESH runs move / eating check / poisoning check while PLAYING;
MOUSEBUTTONDOWN runs `clicked` while PLAYING and `restart` while
STARTING; `Game.START` runs `handleStart`; `Game.RESTART` sets STARTING. -/
noncomputable def step (g : GameState) (e : GEvent) : GameState :=
  match e with
  | GEvent.refresh =>
      if g.phase = Phase.PLAYING then
        checkAntPoisoned (checkAntEating { g with ant := antMove g.ant })
      else g
  | GEvent.click pos =>
      if g.phase = Phase.PLAYING then clicked g pos
      else if g.phase = Phase.STARTING then restart g
      else g
  | GEvent.startTimer => handleStart g
  | GEvent.restartTimer => { g with phase := Phase.STARTING }
  | GEvent.other => g

/-- `Game.__init__`: score 0, lives 3, state STARTING, ant at the centre
with speed `START_SPEED`, direction 0, image index 1 and no target yet;
empty food and poison sets. -/
def initGame (pO : ℕ → ℝ × ℝ) (sO : ℕ → ℝ) (aSize : ℝ) : GameState :=
  { score := 0, lives := 3, phase := Phase.STARTING,
    ant := { pos := ((400:ℝ), (300:ℝ)), direction := 0, speed := START_SPEED,
             target := none, imageIndex := 1, asize := aSize },
    food := [], poison := [], ctr := 0, posO := pO, sizeO := sO }

/-- A game state reachable from `Game.__init__` by some sequence of
handled events (for some randomness oracles and ant sprite size). -/
def Reachable (g : GameState) : Prop :=
  ∃ (pO : ℕ → ℝ × ℝ) (sO : ℕ → ℝ) (aSize : ℝ) (evs : List GEvent),
    g = evs.foldl step (initGame pO sO aSize)

/-- The retry loop of `Game.good_position` over the successive draws of
`random.randint(50, width-50), random.randint(50, height-50)`: a draw is
rejected when it is within 200 of the ant or within 50 of any existing
poison or food entity; the first acceptable draw is returned.  (`none`
models the loop still running after the listed draws.) -/
noncomputable def goodPosition (antPos : ℝ × ℝ) (others : List (ℝ × ℝ)) :
    List (ℝ × ℝ) → Option (ℝ × ℝ)
  | [] => none
  | c :: rest =>
      if distance antPos c < 200 ∨ ∃ q ∈ others, distance q c < 50 then
        goodPosition antPos others rest
      else some c

/-! ### Helper lemmas -/

/-- The first normalisation loop does nothing on inputs at most pi. -/
theorem normDown_eq_self (d : ℝ) (h : d ≤ Real.pi) : normDown d = d := by
  rw [normDown]
  exact dif_neg (not_lt.mpr h)

/-- The second normalisation loop does nothing on inputs at least -pi. -/
theorem normUp_eq_self (d : ℝ) (h : -Real.pi ≤ d) : normUp d = d := by
  rw [normUp]
  exact dif_neg (not_lt.mpr h)

/-- Normalisation does nothing on directions already in [-pi, pi]. -/
theorem normalizeDir_eq_self (d : ℝ) (h1 : -Real.pi ≤ d) (h2 : d ≤ Real.pi) :
    normalizeDir d = d := by
  rw [normalizeDir, normDown_eq_self d h2, normUp_eq_self d h1]

/-- `Ant.choose_food` never changes the ant's speed. -/
theorem antChooseFood_speed (a : AntState) (l : List Entity) :
    (antChooseFood a l).speed = a.speed := by
  unfold antChooseFood
  cases chooseFood a.pos l <;> rfl

/-- `Ant.choose_food` changes at most the target field. -/
theorem antChooseFood_pos (a : AntState) (l : List Entity) :
    (antChooseFood a l).pos = a.pos := by
  unfold antChooseFood
  cases chooseFood a.pos l <;> rfl

/-! ### C1 -/

/-- C1: the claim that `Ant.move` wraps the signed turn into (-pi, pi] by
adding 2*pi when `turn < -pi` is FALSE of the code: at normalized
direction 3*pi/4 and target heading theta = -3*pi/4 the raw turn is
-3*pi/2, and the code computes `2*pi - turn = 7*pi/2`, which differs from
the claimed `turn + 2*pi = pi/2` and lies outside (-pi, pi]. -/
theorem C1_turn_wrap_bug :
    wrapTurn ((-3*Real.pi/4) - normalizeDir (3*Real.pi/4)) = 7*Real.pi/2 ∧
    wrapTurn ((-3*Real.pi/4) - normalizeDir (3*Real.pi/4)) ≠
      ((-3*Real.pi/4) - normalizeDir (3*Real.pi/4)) + 2*Real.pi ∧
    wrapTurn ((-3*Real.pi/4) - normalizeDir (3*Real.pi/4)) ∉
      Set.Ioc (-Real.pi) Real.pi := by
  have hpi := Real.pi_pos
  have hnorm : normalizeDir (3*Real.pi/4) = 3*Real.pi/4 :=
    normalizeDir_eq_self _ (by linarith) (by linarith)
  rw [hnorm]
  have harg : (-3*Real.pi/4) - 3*Real.pi/4 = -(3*Real.pi/2) := by ring
  rw [harg]
  have h1 : ¬(-(3*Real.pi/2) > Real.pi) := by linarith
  have h2 : -(3*Real.pi/2) < -Real.pi := by linarith
  have hw : wrapTurn (-(3*Real.pi/2)) = 7*Real.pi/2 := by
    unfold wrapTurn
    rw [if_neg h1, if_pos h2]
    ring
  refine ⟨hw, ?_, ?_⟩
  · rw [hw]
    intro h
    nlinarith
  · rw [hw, Set.mem_Ioc]
    intro h
    nlinarith [h.2]

/-! ### C2 -/

/-- C2: one call of `Ant.move` changes the (normalized) direction by at
most `speed * pi/75` in absolute value, for every ant state with a
target and nonnegative speed. -/
theorem C2_turn_bound (a : AntState) (t : Entity) (h1 : a.target = some t)
    (h2 : 0 ≤ a.speed) :
    |(antMove a).direction - normalizeDir a.direction| ≤
      (a.speed : ℝ) * (Real.pi / 75) := by
  have hs : (0:ℝ) ≤ (a.speed : ℝ) := by exact_mod_cast h2
  have hrot : (0:ℝ) ≤ (a.speed : ℝ) * ROT := by
    have : (0:ℝ) < ROT := by
      rw [ROT]
      positivity
    positivity
  simp only [antMove, h1, moveDirection]
  rw [abs_le]
  constructor
  · have := le_max_left (-((a.speed : ℝ) * ROT))
      (min ((a.speed : ℝ) * ROT) (wrapTurn (Complex.arg
        ⟨(t.pos.1 - a.pos.1) / Real.sqrt ((t.pos.1 - a.pos.1)^2 + (t.pos.2 - a.pos.2)^2),
         (t.pos.2 - a.pos.2) / Real.sqrt ((t.pos.1 - a.pos.1)^2 + (t.pos.2 - a.pos.2)^2)⟩
        - normalizeDir a.direction)))
    rw [ROT] at this ⊢
    linarith
  · have hle : max (-((a.speed : ℝ) * ROT))
      (min ((a.speed : ℝ) * ROT) (wrapTurn (Complex.arg
        ⟨(t.pos.1 - a.pos.1) / Real.sqrt ((t.pos.1 - a.pos.1)^2 + (t.pos.2 - a.pos.2)^2),
         (t.pos.2 - a.pos.2) / Real.sqrt ((t.pos.1 - a.pos.1)^2 + (t.pos.2 - a.pos.2)^2)⟩
        - normalizeDir a.direction))) ≤ (a.speed : ℝ) * ROT :=
      max_le (by linarith) (min_le_left _ _)
    rw [ROT] at hle ⊢
    linarith

/-- C2 witness: a concrete ant at the origin with speed 5 targeting
(1, 0). -/
theorem C2_turn_bound_witness :
    |(antMove ⟨((0:ℝ),(0:ℝ)), 0, 5, some ⟨0, ((1:ℝ),(0:ℝ)), 1⟩, 1, 0⟩).direction -
      normalizeDir (0:ℝ)| ≤ ((5:ℤ) : ℝ) * (Real.pi / 75) :=
  C2_turn_bound ⟨((0:ℝ),(0:ℝ)), 0, 5, some ⟨0, ((1:ℝ),(0:ℝ)), 1⟩, 1, 0⟩
    ⟨0, ((1:ℝ),(0:ℝ)), 1⟩ rfl (by norm_num)

/-- Evaluating `distance` at points whose squared distance is a perfect
square. -/
theorem distance_eval (x1 y1 x2 y2 r : ℝ) (h : (x1 - x2)^2 + (y1 - y2)^2 = r^2)
    (hr : 0 ≤ r) : distance (x1, y1) (x2, y2) = r := by
  unfold distance
  simp only
  rw [h]
  exact Real.sqrt_sq hr

/-! ### C5 -/

/-- C5: whenever the retry loop of `Game.good_position` returns, the
returned position is one of the in-bounds draws, at distance at least
200 from the ant and at least 50 from every existing food/poison
position. -/
theorem C5_good_position (a : ℝ × ℝ) (others cands : List (ℝ × ℝ)) (p : ℝ × ℝ)
    (hin : ∀ c ∈ cands, 50 ≤ c.1 ∧ c.1 ≤ 750 ∧ 50 ≤ c.2 ∧ c.2 ≤ 550)
    (hr : goodPosition a others cands = some p) :
    (50 ≤ p.1 ∧ p.1 ≤ 750 ∧ 50 ≤ p.2 ∧ p.2 ≤ 550) ∧
    200 ≤ distance a p ∧ ∀ q ∈ others, 50 ≤ distance q p := by
  induction cands with
  | nil => simp [goodPosition] at hr
  | cons c rest ih =>
      rw [goodPosition] at hr
      by_cases hcond : distance a c < 200 ∨ ∃ q ∈ others, distance q c < 50
      · rw [if_pos hcond] at hr
        exact ih (fun x hx => hin x (List.mem_cons_of_mem _ hx)) hr
      · rw [if_neg hcond] at hr
        obtain rfl : c = p := Option.some_inj.mp hr
        push_neg at hcond
        exact ⟨hin c (List.mem_cons_self c rest),
               hcond.1, fun q hq => hcond.2 q hq⟩

/-- C5 witness: ant at the origin, no existing entities, first draw
(300, 400) at distance 500 from the ant is returned. -/
theorem C5_good_position_witness :
    ((50:ℝ) ≤ (((300:ℝ), (400:ℝ)) : ℝ × ℝ).1 ∧ (((300:ℝ), (400:ℝ)) : ℝ × ℝ).1 ≤ 750 ∧
      (50:ℝ) ≤ (((300:ℝ), (400:ℝ)) : ℝ × ℝ).2 ∧ (((300:ℝ), (400:ℝ)) : ℝ × ℝ).2 ≤ 550) ∧
    (200:ℝ) ≤ distance ((0:ℝ), (0:ℝ)) ((300:ℝ), (400:ℝ)) ∧
    ∀ q ∈ ([] : List (ℝ × ℝ)), (50:ℝ) ≤ distance q ((300:ℝ), (400:ℝ)) := by
  have hd : distance ((0:ℝ), (0:ℝ)) ((300:ℝ), (400:ℝ)) = 500 :=
    distance_eval 0 0 300 400 500 (by norm_num) (by norm_num)
  refine C5_good_position ((0:ℝ), (0:ℝ)) [] [((300:ℝ), (400:ℝ))] ((300:ℝ), (400:ℝ))
    (by intro c hc; simp at hc; rw [hc]; norm_num) ?_
  rw [goodPosition, if_neg]
  rw [hd]
  simp only [List.not_mem_nil]
  push_neg
  exact ⟨by norm_num, fun q hq => absurd hq id⟩

/-! ### C10 -/

/-- C10: when the ant is at distance at least `speed` from its target,
`Game.check_ant_eating` changes nothing: score, lives, speed, state,
food, poison and target are all unchanged. -/
theorem C10_eating_frame (g : GameState) (t : Entity)
    (h1 : g.ant.target = some t)
    (h2 : (g.ant.speed : ℝ) ≤ distance g.ant.pos t.pos) :
    (checkAntEating g).score = g.score ∧
    (checkAntEating g).lives = g.lives ∧
    (checkAntEating g).ant.speed = g.ant.speed ∧
    (checkAntEating g).phase = g.phase ∧
    (checkAntEating g).food = g.food ∧
    (checkAntEating g).poison = g.poison ∧
    (checkAntEating g).ant.target = g.ant.target := by
  have h : checkAntEating g = g := by
    unfold checkAntEating
    rw [h1]
    simp only
    rw [if_neg (not_lt.mpr h2)]
  rw [h]
  exact ⟨rfl, rfl, rfl, rfl, rfl, rfl, rfl⟩

/-- C10 witness: ant with speed 5 at the origin, target 100 away; the
check leaves the score unchanged. -/
theorem C10_eating_frame_witness :
    ((5:ℤ) : ℝ) ≤ distance ((0:ℝ), (0:ℝ)) ((100:ℝ), (0:ℝ)) ∧
    (checkAntEating ⟨0, 3, Phase.PLAYING,
        ⟨((0:ℝ), (0:ℝ)), 0, 5, some ⟨0, ((100:ℝ), (0:ℝ)), 1⟩, 1, 0⟩,
        [⟨0, ((100:ℝ), (0:ℝ)), 1⟩], [], 1,
        fun _ => ((0:ℝ), (0:ℝ)), fun _ => (0:ℝ)⟩).score = 0 := by
  have hd : distance ((0:ℝ), (0:ℝ)) ((100:ℝ), (0:ℝ)) = 100 :=
    distance_eval 0 0 100 0 100 (by norm_num) (by norm_num)
  have h5 : ((5:ℤ) : ℝ) ≤ distance ((0:ℝ), (0:ℝ)) ((100:ℝ), (0:ℝ)) := by
    rw [hd]
    norm_num
  exact ⟨h5, (C10_eating_frame _ ⟨0, ((100:ℝ), (0:ℝ)), 1⟩ rfl h5).1⟩

/-! ### C9 -/

/-- C9: with lives = 1, touching poison makes `die()` set lives to 0 and
state to DYING, and the subsequent START timer event then moves the state
to GAME_OVER, not back to PLAYING. -/
theorem C9_death_game_over (g : GameState) (h1 : g.lives = 1)
    (h2 : ∃ p ∈ g.poison, distance g.ant.pos p.pos < (g.ant.asize + p.esize) / 3) :
    (checkAntPoisoned g).lives = 0 ∧
    (checkAntPoisoned g).phase = Phase.DYING ∧
    (step (checkAntPoisoned g) GEvent.startTimer).phase = Phase.GAME_OVER ∧
    (step (checkAntPoisoned g) GEvent.startTimer).phase ≠ Phase.PLAYING := by
  have hd : checkAntPoisoned g = die g := by
    unfold checkAntPoisoned
    exact if_pos h2
  have hlives : (checkAntPoisoned g).lives = 0 := by
    rw [hd]
    show g.lives - 1 = 0
    rw [h1]
    norm_num
  have hphase : (checkAntPoisoned g).phase = Phase.DYING := by
    rw [hd]
    rfl
  have hstep : step (checkAntPoisoned g) GEvent.startTimer
      = gameOver (checkAntPoisoned g) := by
    show handleStart (checkAntPoisoned g) = gameOver (checkAntPoisoned g)
    unfold handleStart
    rw [if_pos hlives]
  refine ⟨hlives, hphase, ?_, ?_⟩
  · rw [hstep]
    rfl
  · rw [hstep]
    show Phase.GAME_OVER ≠ Phase.PLAYING
    decide

/-- C9 witness: one life left, a poison on the ant (sizes 30, so the
poisoning threshold is 20 and the distance is 0). -/
theorem C9_death_game_over_witness :
    (checkAntPoisoned ⟨0, 1, Phase.PLAYING, ⟨((0:ℝ), (0:ℝ)), 0, 5, none, 1, 30⟩,
        [], [⟨0, ((0:ℝ), (0:ℝ)), 30⟩], 1,
        fun _ => ((0:ℝ), (0:ℝ)), fun _ => (0:ℝ)⟩).lives = 0 ∧
    (checkAntPoisoned ⟨0, 1, Phase.PLAYING, ⟨((0:ℝ), (0:ℝ)), 0, 5, none, 1, 30⟩,
        [], [⟨0, ((0:ℝ), (0:ℝ)), 30⟩], 1,
        fun _ => ((0:ℝ), (0:ℝ)), fun _ => (0:ℝ)⟩).phase = Phase.DYING ∧
    (step (checkAntPoisoned ⟨0, 1, Phase.PLAYING, ⟨((0:ℝ), (0:ℝ)), 0, 5, none, 1, 30⟩,
        [], [⟨0, ((0:ℝ), (0:ℝ)), 30⟩], 1,
        fun _ => ((0:ℝ), (0:ℝ)), fun _ => (0:ℝ)⟩) GEvent.startTimer).phase
      = Phase.GAME_OVER ∧
    (step (checkAntPoisoned ⟨0, 1, Phase.PLAYING, ⟨((0:ℝ), (0:ℝ)), 0, 5, none, 1, 30⟩,
        [], [⟨0, ((0:ℝ), (0:ℝ)), 30⟩], 1,
        fun _ => ((0:ℝ), (0:ℝ)), fun _ => (0:ℝ)⟩) GEvent.startTimer).phase
      ≠ Phase.PLAYING := by
  refine C9_death_game_over _ rfl ⟨⟨0, ((0:ℝ), (0:ℝ)), 30⟩, by simp, ?_⟩
  have hd : distance ((0:ℝ), (0:ℝ)) ((0:ℝ), (0:ℝ)) = 0 :=
    distance_eval 0 0 0 0 0 (by norm_num) (by norm_num)
  show distance ((0:ℝ), (0:ℝ)) ((0:ℝ), (0:ℝ)) < ((30:ℝ) + 30) / 3
  rw [hd]
  norm_num

/-! ### C7 -/

/-- Every element of a filtered-out-id list plus one fresh singleton has
an id different from the filtered one. -/
theorem mem_filter_append_ne (l : List Entity) (t : Entity) (c : ℕ) (x : ℝ × ℝ)
    (y : ℝ) (hc : t.eid ≠ c) :
    ∀ e ∈ (l.filter (fun e => e.eid != t.eid)) ++ [Entity.mk c x y],
      e.eid ≠ t.eid := by
  intro e he
  rcases List.mem_append.mp he with hf | hn
  · have hb := (List.mem_filter.mp hf).2
    simpa using hb
  · rw [List.mem_singleton] at hn
    subst hn
    exact fun hEq => hc hEq.symm

/-- C7: `Game.check_ant_eating` eats exactly when the ant is within
`speed` of its target; eating removes the target from the food set, adds
exactly 100 to the score, and bumps the speed by exactly 1 exactly when
the new score is a multiple of 1000. -/
theorem C7_eating (g : GameState) (t : Entity) (h1 : g.ant.target = some t)
    (h2 : t.eid < g.ctr) :
    (distance g.ant.pos t.pos < (g.ant.speed : ℝ) →
      (checkAntEating g).score = g.score + 100 ∧
      (∀ e ∈ (checkAntEating g).food, e.eid ≠ t.eid) ∧
      (checkAntEating g).ant.speed =
        (if (g.score + 100) % 1000 = 0 then g.ant.speed + 1 else g.ant.speed)) ∧
    ((g.ant.speed : ℝ) ≤ distance g.ant.pos t.pos → checkAntEating g = g) := by
  constructor
  · intro hlt
    unfold checkAntEating
    rw [h1]
    simp only
    rw [if_pos hlt]
    simp only [addPoison, spawn, antChooseFood_speed]
    refine ⟨?_, ?_, ?_⟩
    · split_ifs <;> rfl
    · split_ifs <;> dsimp only <;>
        exact mem_filter_append_ne _ t _ _ _ (by omega)
    · split_ifs <;> rfl
  · intro hge
    unfold checkAntEating
    rw [h1]
    simp only
    rw [if_neg (not_lt.mpr hge)]

/-- C7 witness: ant on top of its target (distance 0 < speed 5); the
score rises from 0 to 100. -/
theorem C7_eating_witness :
    distance ((0:ℝ), (0:ℝ)) ((0:ℝ), (0:ℝ)) < ((5:ℤ) : ℝ) ∧
    (checkAntEating ⟨0, 3, Phase.PLAYING,
        ⟨((0:ℝ), (0:ℝ)), 0, 5, some ⟨0, ((0:ℝ), (0:ℝ)), 1⟩, 1, 0⟩,
        [⟨0, ((0:ℝ), (0:ℝ)), 1⟩], [], 1,
        fun _ => ((0:ℝ), (0:ℝ)), fun _ => (0:ℝ)⟩).score = 0 + 100 := by
  have hd : distance ((0:ℝ), (0:ℝ)) ((0:ℝ), (0:ℝ)) = 0 :=
    distance_eval 0 0 0 0 0 (by norm_num) (by norm_num)
  have hlt : distance ((0:ℝ), (0:ℝ)) ((0:ℝ), (0:ℝ)) < ((5:ℤ) : ℝ) := by
    rw [hd]
    norm_num
  refine ⟨hlt, ?_⟩
  have h9 := (C7_eating ⟨0, 3, Phase.PLAYING,
        ⟨((0:ℝ), (0:ℝ)), 0, 5, some ⟨0, ((0:ℝ), (0:ℝ)), 1⟩, 1, 0⟩,
        [⟨0, ((0:ℝ), (0:ℝ)), 1⟩], [], 1,
        fun _ => ((0:ℝ), (0:ℝ)), fun _ => (0:ℝ)⟩ ⟨0, ((0:ℝ), (0:ℝ)), 1⟩
      rfl (by norm_num)).1 hlt
  exact h9.1

/-! ### C4 -/

/-- The set comprehension creates exactly `n` members. -/
theorem spawnMany_length (n : ℕ) : ∀ g : GameState, (spawnMany n g).1.length = n := by
  induction n with
  | zero => intro g; rfl
  | succ n ih => intro g; simp [spawnMany, ih]

/-- Creating objects does not touch the score. -/
theorem spawnMany_score (n : ℕ) : ∀ g : GameState, (spawnMany n g).2.score = g.score := by
  induction n with
  | zero => intro g; rfl
  | succ n ih => intro g; rw [spawnMany]; dsimp only; rw [ih]; rfl

/-- All freshly created objects have identities at or above the starting
counter. -/
theorem spawnMany_eid_ge (n : ℕ) :
    ∀ g : GameState, ∀ e ∈ (spawnMany n g).1, g.ctr ≤ e.eid := by
  induction n with
  | zero => intro g e he; simp [spawnMany] at he
  | succ n ih =>
      intro g e he
      rw [spawnMany] at he
      dsimp only at he
      rcases List.mem_cons.mp he with rfl | hrest
      · exact le_refl _
      · have := ih _ e hrest
        simp only [spawn] at this
        omega

/-- Freshly created objects have pairwise distinct identities: the
comprehension really yields a set of `n` members. -/
theorem spawnMany_nodup (n : ℕ) :
    ∀ g : GameState, ((spawnMany n g).1.map Entity.eid).Nodup := by
  induction n with
  | zero => intro g; simp [spawnMany]
  | succ n ih =>
      intro g
      rw [spawnMany]
      dsimp only
      rw [List.map_cons, List.nodup_cons]
      refine ⟨?_, ih _⟩
      intro hmem
      rcases List.mem_map.mp hmem with ⟨e, he, heid⟩
      have := spawnMany_eid_ge n _ e he
      simp only [spawn] at this
      dsimp only [spawn] at heid
      omega

/-- Creating objects does not touch the food set. -/
theorem spawnMany_food (n : ℕ) : ∀ g : GameState, (spawnMany n g).2.food = g.food := by
  induction n with
  | zero => intro g; rfl
  | succ n ih => intro g; rw [spawnMany]; dsimp only; rw [ih]; rfl

/-- C4: every `Game.start` call leaves exactly `NUM_FOOD = 4` food
members and exactly `MIN_POISON + score div 5000 = 6 + score div 5000`
poison members (the created objects are pairwise distinct). -/
theorem C4_start_counts (g : GameState) (h : 0 ≤ g.score) :
    (start g).food.length = NUM_FOOD ∧
    (((start g).poison.length : ℤ) = MIN_POISON + g.score / 5000) ∧
    ((start g).food.map Entity.eid).Nodup ∧
    ((start g).poison.map Entity.eid).Nodup := by
  have hdiv : (0:ℤ) ≤ g.score / 5000 := Int.ediv_nonneg h (by norm_num)
  unfold start
  dsimp only
  refine ⟨?_, ?_, ?_, ?_⟩
  · rw [spawnMany_food]
    dsimp only
    rw [spawnMany_length]
  · rw [spawnMany_length]
    rw [spawnMany_score]
    dsimp only
    rw [Int.toNat_of_nonneg (by rw [MIN_POISON]; omega)]
  · rw [spawnMany_food]
    dsimp only
    exact spawnMany_nodup _ _
  · exact spawnMany_nodup _ _

/-- C4 witness: starting from the initial game (score 0) gives 4 food
items. -/
theorem C4_start_counts_witness :
    (0:ℤ) ≤ (initGame (fun _ => ((0:ℝ), (0:ℝ))) (fun _ => (0:ℝ)) 0).score ∧
    (start (initGame (fun _ => ((0:ℝ), (0:ℝ))) (fun _ => (0:ℝ)) 0)).food.length
      = NUM_FOOD :=
  ⟨le_refl 0,
   (C4_start_counts (initGame (fun _ => ((0:ℝ), (0:ℝ))) (fun _ => (0:ℝ)) 0)
      (le_refl 0)).1⟩

/-! ### C3 -/

/-- Invariant of the `choose_food` scan: either no item beats `dmin` and
the kept target is returned, or the first item attaining the minimum
(strictly below `dmin`) is returned. -/
theorem chooseFoodAux_spec (pos : ℝ × ℝ) :
    ∀ (l : List Entity) (tgt : Option Entity) (dmin : ℝ),
    (chooseFoodAux pos l tgt dmin = tgt ∧
      ∀ f ∈ l, dmin ≤ distance pos f.pos) ∨
    (∃ (i : ℕ) (g : Entity), l[i]? = some g ∧
      chooseFoodAux pos l tgt dmin = some g ∧
      distance pos g.pos < dmin ∧
      (∀ f ∈ l, distance pos g.pos ≤ distance pos f.pos) ∧
      (∀ j : ℕ, j < i → ∀ f : Entity, l[j]? = some f →
        distance pos g.pos < distance pos f.pos)) := by
  intro l
  induction l with
  | nil => intro tgt dmin; left; exact ⟨rfl, by simp⟩
  | cons f rest ih =>
      intro tgt dmin
      rw [chooseFoodAux]
      by_cases hd : distance pos f.pos < dmin
      · rw [if_pos hd]
        rcases ih (some f) (distance pos f.pos) with ⟨heq, hall⟩ |
          ⟨i, gg, hget, heq, hlt, hmin, hpre⟩
        · right
          refine ⟨0, f, by simp, heq, hd, ?_, ?_⟩
          · intro x hx
            rcases List.mem_cons.mp hx with rfl | hx
            · exact le_refl _
            · exact hall x hx
          · intro j hj
            omega
        · right
          refine ⟨i + 1, gg, by simpa using hget, heq, lt_trans hlt hd, ?_, ?_⟩
          · intro x hx
            rcases List.mem_cons.mp hx with rfl | hx
            · exact le_of_lt hlt
            · exact hmin x hx
          · intro j hj ff hf
            cases j with
            | zero =>
                simp only [List.getElem?_cons_zero, Option.some_inj] at hf
                subst hf
                exact hlt
            | succ j' =>
                simp only [List.getElem?_cons_succ] at hf
                exact hpre j' (by omega) ff hf
      · rw [if_neg hd]
        rcases ih tgt dmin with ⟨heq, hall⟩ |
          ⟨i, gg, hget, heq, hlt, hmin, hpre⟩
        · left
          refine ⟨heq, ?_⟩
          intro x hx
          rcases List.mem_cons.mp hx with rfl | hx
          · exact not_lt.mp hd
          · exact hall x hx
        · right
          refine ⟨i + 1, gg, by simpa using hget, heq, hlt, ?_, ?_⟩
          · intro x hx
            rcases List.mem_cons.mp hx with rfl | hx
            · exact le_trans (le_of_lt hlt) (not_lt.mp hd)
            · exact hmin x hx
          · intro j hj ff hf
            cases j with
            | zero =>
                simp only [List.getElem?_cons_zero, Option.some_inj] at hf
                subst hf
                exact lt_of_lt_of_le hlt (not_lt.mp hd)
            | succ j' =>
                simp only [List.getElem?_cons_succ] at hf
                exact hpre j' (by omega) ff hf

/-- C3 counterexample: with one food item at distance exactly `10**15`
(the sentinel initial minimum), `choose_food` assigns no target at all,
although the collection is nonempty — the claim fails as stated. -/
theorem C3_choose_food_cex :
    ([⟨0, ((10^15 : ℝ), 0), 1⟩] : List Entity) ≠ [] ∧
    chooseFood ((0:ℝ), (0:ℝ)) [⟨0, ((10^15 : ℝ), 0), 1⟩] = none := by
  constructor
  · simp
  · have hd : distance ((0:ℝ), (0:ℝ)) ((10^15 : ℝ), 0) = 10^15 :=
      distance_eval 0 0 (10^15) 0 (10^15) (by norm_num) (by norm_num)
    rw [chooseFood, chooseFoodAux]
    rw [if_neg]
    · rfl
    · show ¬(distance ((0:ℝ), (0:ℝ)) ((10^15 : ℝ), 0) < 10^15)
      rw [hd]
      exact lt_irrefl _

/-- C3 (amended: provided some food item is strictly within the `10**15`
sentinel distance): `choose_food` stores the food item of minimum
Euclidean distance to the ant, and specifically the first minimum in
iteration order (all earlier items are strictly farther). -/
theorem C3_choose_food_min (pos : ℝ × ℝ) (food : List Entity)
    (h : ∃ f ∈ food, distance pos f.pos < 10^15) :
    ∃ (i : ℕ) (g : Entity), food[i]? = some g ∧ chooseFood pos food = some g ∧
      (∀ f ∈ food, distance pos g.pos ≤ distance pos f.pos) ∧
      (∀ j : ℕ, j < i → ∀ f : Entity, food[j]? = some f →
        distance pos g.pos < distance pos f.pos) := by
  rcases chooseFoodAux_spec pos food none (10^15) with ⟨_, hall⟩ |
    ⟨i, gg, h1, h2, _, h4, h5⟩
  · obtain ⟨f, hf, hlt⟩ := h
    exact absurd hlt (not_lt.mpr (hall f hf))
  · exact ⟨i, gg, h1, h2, h4, h5⟩

/-- C3 witness: a single food item at distance 5 is selected. -/
theorem C3_choose_food_min_witness :
    ∃ (i : ℕ) (g : Entity),
      ([⟨0, ((3:ℝ), (4:ℝ)), 1⟩] : List Entity)[i]? = some g ∧
      chooseFood ((0:ℝ), (0:ℝ)) [⟨0, ((3:ℝ), (4:ℝ)), 1⟩] = some g ∧
      (∀ f ∈ ([⟨0, ((3:ℝ), (4:ℝ)), 1⟩] : List Entity),
        distance ((0:ℝ), (0:ℝ)) g.pos ≤ distance ((0:ℝ), (0:ℝ)) f.pos) ∧
      (∀ j : ℕ, j < i → ∀ f : Entity,
        ([⟨0, ((3:ℝ), (4:ℝ)), 1⟩] : List Entity)[j]? = some f →
        distance ((0:ℝ), (0:ℝ)) g.pos < distance ((0:ℝ), (0:ℝ)) f.pos) := by
  refine C3_choose_food_min ((0:ℝ), (0:ℝ)) [⟨0, ((3:ℝ), (4:ℝ)), 1⟩]
    ⟨⟨0, ((3:ℝ), (4:ℝ)), 1⟩, by simp, ?_⟩
  have hd : distance ((0:ℝ), (0:ℝ)) ((3:ℝ), (4:ℝ)) = 5 :=
    distance_eval 0 0 3 4 5 (by norm_num) (by norm_num)
  show distance ((0:ℝ), (0:ℝ)) ((3:ℝ), (4:ℝ)) < 10^15
  rw [hd]
  norm_num

/-! ### C8 -/

/-- `addPoison` appends one fresh entity to the poison set. -/
theorem addPoison_poison (g : GameState) :
    (addPoison g).poison = g.poison ++ [⟨g.ctr, g.posO g.ctr, g.sizeO g.ctr⟩] := rfl

/-- `addPoison` advances the creation counter by one. -/
theorem addPoison_ctr (g : GameState) : (addPoison g).ctr = g.ctr + 1 := rfl

/-- Removing one member (by identity) from a duplicate-free set shrinks
it by exactly one. -/
theorem length_filter_erase (l : List Entity) (p : Entity)
    (hn : (l.map Entity.eid).Nodup) (hp : p ∈ l) :
    (l.filter (fun e => e.eid != p.eid)).length + 1 = l.length := by
  induction l with
  | nil => cases hp
  | cons h t ih =>
      rw [List.map_cons, List.nodup_cons] at hn
      by_cases he : h.eid = p.eid
      · have hkeep : t.filter (fun e => e.eid != p.eid) = t := by
          rw [List.filter_eq_self]
          intro x hx
          rw [bne_iff_ne]
          intro hEq
          exact hn.1 (List.mem_map.mpr ⟨x, hx, by rw [hEq, he]⟩)
        rw [List.filter_cons]
        have hcond : (h.eid != p.eid) = false := by simp [he]
        rw [hcond]
        simp [hkeep]
      · have hp' : p ∈ t := by
          rcases List.mem_cons.mp hp with rfl | h'
          · exact absurd rfl he
          · exact h'
        rw [List.filter_cons]
        have hcond : (h.eid != p.eid) = true := by simp [he]
        rw [hcond]
        have := ih hn.2 hp'
        simp only [if_true, List.length_cons]
        omega

/-- Loop invariant of `Game.clicked`: over a snapshot of duplicate-free
members of the live poison set, each near-click snapshot member is
removed (and never re-enters), each other member survives, each
iteration replaces one removed member by one fresh one (so the length is
preserved), and every final member is an original member or a fresh
one. -/
theorem clickedAux_spec (c : ℝ × ℝ) :
    ∀ (snap : List Entity) (g : GameState),
    (g.poison.map Entity.eid).Nodup →
    (snap.map Entity.eid).Nodup →
    (∀ q ∈ g.poison, q.eid < g.ctr) →
    (∀ p ∈ snap, p ∈ g.poison) →
    ((clickedAux c snap g).poison.length = g.poison.length ∧
     (∀ p ∈ snap, distance p.pos c < p.esize / 2 →
        ∀ e ∈ (clickedAux c snap g).poison, e.eid ≠ p.eid) ∧
     (∀ q ∈ g.poison,
        (∀ p ∈ snap, p.eid = q.eid → ¬(distance p.pos c < p.esize / 2)) →
        q ∈ (clickedAux c snap g).poison) ∧
     (∀ e ∈ (clickedAux c snap g).poison, e ∈ g.poison ∨ g.ctr ≤ e.eid) ∧
     g.ctr ≤ (clickedAux c snap g).ctr) := by
  intro snap
  induction snap with
  | nil =>
      intro g h1 h2 h3 h4
      refine ⟨rfl, by simp, ?_, ?_, le_refl _⟩
      · intro q hq _
        exact hq
      · intro e he
        exact Or.inl he
  | cons p rest ih =>
      intro g h1 h2 h3 h4
      rw [List.map_cons, List.nodup_cons] at h2
      obtain ⟨hpnotin, h2rest⟩ := h2
      have hp_mem : p ∈ g.poison := h4 p (List.mem_cons_self _ _)
      have hp_lt : p.eid < g.ctr := h3 p hp_mem
      rw [clickedAux]
      by_cases hdist : distance p.pos c < p.esize / 2
      · rw [if_pos hdist]
        have hfilter_sub : ∀ e ∈ g.poison.filter (fun e => e.eid != p.eid),
            e ∈ g.poison := fun e he => List.mem_of_mem_filter he
        have key := ih (addPoison { g with
            poison := g.poison.filter (fun e => e.eid != p.eid) })
          ?_ h2rest ?_ ?_
        · rw [addPoison_poison, addPoison_ctr] at key
          dsimp only at key
          obtain ⟨k1, k2, k3, k4, k5⟩ := key
          have hflen : (g.poison.filter (fun e => e.eid != p.eid)).length + 1
              = g.poison.length := length_filter_erase g.poison p h1 hp_mem
          refine ⟨?_, ?_, ?_, ?_, ?_⟩
          · rw [k1, List.length_append]
            simpa using hflen
          · intro x hx hdx e he
            rcases List.mem_cons.mp hx with rfl | hx
            · rcases k4 e he with hein | hge
              · rcases List.mem_append.mp hein with hf | hs
                · have hb := (List.mem_filter.mp hf).2
                  simpa using hb
                · rw [List.mem_singleton] at hs
                  subst hs
                  dsimp only
                  omega
              · omega
            · exact k2 x hx hdx e he
          · intro q hq hcond
            have hqp : q.eid ≠ p.eid := by
              intro hEq
              exact hcond p (List.mem_cons_self _ _) hEq.symm hdist
            have hq' : q ∈ g.poison.filter (fun e => e.eid != p.eid) ++
                [⟨g.ctr, g.posO g.ctr, g.sizeO g.ctr⟩] :=
              List.mem_append_left _
                (List.mem_filter.mpr ⟨hq, by simpa using hqp⟩)
            exact k3 q hq' (fun x hx hEq => hcond x (List.mem_cons_of_mem _ hx) hEq)
          · intro e he
            rcases k4 e he with hein | hge
            · rcases List.mem_append.mp hein with hf | hs
              · exact Or.inl (hfilter_sub e hf)
              · rw [List.mem_singleton] at hs
                subst hs
                exact Or.inr (le_refl _)
            · exact Or.inr (by omega)
          · dsimp only
            omega
        · rw [addPoison_poison]
          dsimp only
          rw [List.map_append]
          rw [List.nodup_append]
          refine ⟨?_, by simp, ?_⟩
          · exact h1.sublist ((List.filter_sublist _).map Entity.eid)
          · intro x hx hx'
            simp only [List.map_cons, List.map_nil, List.mem_singleton] at hx'
            subst hx'
            rcases List.mem_map.mp hx with ⟨e, he, heid⟩
            have := h3 e (hfilter_sub e he)
            omega
        · rw [addPoison_poison, addPoison_ctr]
          dsimp only
          intro q hq
          rcases List.mem_append.mp hq with hf | hs
          · have := h3 q (hfilter_sub q hf)
            omega
          · rw [List.mem_singleton] at hs
            subst hs
            dsimp only
            omega
        · rw [addPoison_poison]
          dsimp only
          intro x hx
          have hxg : x ∈ g.poison := h4 x (List.mem_cons_of_mem _ hx)
          have hxp : x.eid ≠ p.eid := by
            intro hEq
            exact hpnotin (List.mem_map.mpr ⟨x, hx, hEq⟩)
          exact List.mem_append_left _
            (List.mem_filter.mpr ⟨hxg, by simpa using hxp⟩)
      · rw [if_neg hdist]
        obtain ⟨k1, k2, k3, k4, k5⟩ := ih g h1 h2rest h3
          (fun x hx => h4 x (List.mem_cons_of_mem _ hx))
        refine ⟨k1, ?_, ?_, k4, k5⟩
        · intro x hx hdx e he
          rcases List.mem_cons.mp hx with rfl | hx
          · exact absurd hdx hdist
          · exact k2 x hx hdx e he
        · intro q hq hcond
          exact k3 q hq (fun x hx hEq => hcond x (List.mem_cons_of_mem _ hx) hEq)

/-- C8: while PLAYING, a click removes every snapshot poison member
within half its size of the click point, each removal is matched by
exactly one fresh replacement, every other member survives, and the
total poison count is unchanged. -/
theorem C8_clicked (g : GameState) (c : ℝ × ℝ)
    (hn : (g.poison.map Entity.eid).Nodup)
    (hb : ∀ q ∈ g.poison, q.eid < g.ctr) :
    (clicked g c).poison.length = g.poison.length ∧
    (∀ p ∈ g.poison, distance p.pos c < p.esize / 2 →
      ∀ e ∈ (clicked g c).poison, e.eid ≠ p.eid) ∧
    (∀ p ∈ g.poison, ¬(distance p.pos c < p.esize / 2) →
      p ∈ (clicked g c).poison) ∧
    (∀ e ∈ (clicked g c).poison, e ∈ g.poison ∨ g.ctr ≤ e.eid) := by
  obtain ⟨k1, k2, k3, k4, _⟩ :=
    clickedAux_spec c g.poison g hn hn hb (fun p hp => hp)
  refine ⟨k1, k2, ?_, k4⟩
  intro p hp hnd
  apply k3 p hp
  intro x hx hEq
  have hxp : x = p := List.inj_on_of_nodup_map hn hx hp hEq
  rw [hxp]
  exact hnd

/-- C8 witness: one poison of size 40 clicked dead-centre; the count
stays 1. -/
theorem C8_clicked_witness :
    (clicked ⟨0, 3, Phase.PLAYING, ⟨((0:ℝ), (0:ℝ)), 0, 5, none, 1, 0⟩,
        [], [⟨0, ((0:ℝ), (0:ℝ)), 40⟩], 1,
        fun _ => ((0:ℝ), (0:ℝ)), fun _ => (0:ℝ)⟩ ((0:ℝ), (0:ℝ))).poison.length
      = 1 :=
  (C8_clicked ⟨0, 3, Phase.PLAYING, ⟨((0:ℝ), (0:ℝ)), 0, 5, none, 1, 0⟩,
      [], [⟨0, ((0:ℝ), (0:ℝ)), 40⟩], 1,
      fun _ => ((0:ℝ), (0:ℝ)), fun _ => (0:ℝ)⟩ ((0:ℝ), (0:ℝ))
    (by simp) (by simp)).1

/-! ### C6 -/

/-- The click loop never touches the score. -/
theorem clickedAux_score (c : ℝ × ℝ) :
    ∀ (snap : List Entity) (g : GameState),
      (clickedAux c snap g).score = g.score := by
  intro snap
  induction snap with
  | nil => intro g; rfl
  | cons p rest ih =>
      intro g
      rw [clickedAux]
      by_cases h : distance p.pos c < p.esize / 2
      · rw [if_pos h, ih]
        rfl
      · rw [if_neg h, ih]

/-- `Game.start` never touches the score. -/
theorem start_score (g : GameState) : (start g).score = g.score := by
  unfold start
  dsimp only
  rw [spawnMany_score]
  dsimp only
  rw [spawnMany_score]

/-- `Game.check_ant_poisoned` never touches the score. -/
theorem checkAntPoisoned_score (g : GameState) :
    (checkAntPoisoned g).score = g.score := by
  unfold checkAntPoisoned
  split_ifs <;> rfl

/-- `Game.check_ant_eating` leaves the score alone or adds exactly 100. -/
theorem checkAntEating_score (g : GameState) :
    (checkAntEating g).score = g.score ∨
    (checkAntEating g).score = g.score + 100 := by
  unfold checkAntEating
  cases htgt : g.ant.target with
  | none => exact Or.inl rfl
  | some t =>
      dsimp only
      by_cases hd : distance g.ant.pos t.pos < (g.ant.speed : ℝ)
      · rw [if_pos hd]
        right
        split_ifs <;> rfl
      · rw [if_neg hd]
        exact Or.inl rfl

/-- One event-loop step keeps the score a nonnegative multiple of 100. -/
theorem step_score_inv (g : GameState) (e : GEvent)
    (h : 0 ≤ g.score ∧ (100:ℤ) ∣ g.score) :
    0 ≤ (step g e).score ∧ (100:ℤ) ∣ (step g e).score := by
  cases e with
  | refresh =>
      unfold step
      dsimp only
      split_ifs with hph
      · rw [checkAntPoisoned_score]
        rcases checkAntEating_score { g with ant := antMove g.ant } with he | he
        · rw [he]
          exact h
        · rw [he]
          dsimp only
          exact ⟨by omega, dvd_add h.2 (by norm_num)⟩
      · exact h
  | click pos =>
      unfold step
      dsimp only
      split_ifs with h1 h2
      · rw [clicked, clickedAux_score]
        exact h
      · unfold restart
        rw [start_score]
        dsimp only
        exact ⟨le_refl 0, dvd_zero 100⟩
      · exact h
  | startTimer =>
      unfold step handleStart
      dsimp only
      split_ifs with h1
      · exact h
      · rw [start_score]
        exact h
  | restartTimer => exact h
  | other => exact h

/-- C6: in every reachable game state the score is a nonnegative
multiple of 100 — it starts at 0 and every handled event preserves the
invariant (`restart` resets it to 0; eating adds exactly 100). -/
theorem C6_score_invariant (g : GameState) (h : Reachable g) :
    0 ≤ g.score ∧ (100:ℤ) ∣ g.score := by
  obtain ⟨pO, sO, aS, evs, rfl⟩ := h
  have main : ∀ (l : List GEvent) (g0 : GameState),
      0 ≤ g0.score ∧ (100:ℤ) ∣ g0.score →
      0 ≤ (l.foldl step g0).score ∧ (100:ℤ) ∣ (l.foldl step g0).score := by
    intro l
    induction l with
    | nil => intro g0 h0; exact h0
    | cons e rest ih =>
        intro g0 h0
        rw [List.foldl_cons]
        exact ih _ (step_score_inv g0 e h0)
  exact main evs _ ⟨le_refl 0, dvd_zero 100⟩

/-- C6 witness: the initial state is reachable (empty event list) and
satisfies the invariant. -/
theorem C6_score_invariant_witness :
    0 ≤ (initGame (fun _ => ((0:ℝ), (0:ℝ))) (fun _ => (0:ℝ)) 0).score ∧
    (100:ℤ) ∣ (initGame (fun _ => ((0:ℝ), (0:ℝ))) (fun _ => (0:ℝ)) 0).score :=
  C6_score_invariant (initGame (fun _ => ((0:ℝ), (0:ℝ))) (fun _ => (0:ℝ)) 0)
    ⟨fun _ => ((0:ℝ), (0:ℝ)), fun _ => (0:ℝ), 0, [], rfl⟩
